import Mathlib

/-!
Verification of the smokescreen configuration subsystem
(pkg/smokescreen/config.go): the certificate-authority registry, the
CRL revocation table maintained by SetupCrls, and per-request identity
resolution installed by Config.Init.

Modelling conventions:
* Go byte strings (map keys such as Subject Key Identifiers and
  Authority Key Identifiers) are lists of naturals compared by exact
  equality, matching Go string equality on raw bytes.
* Go maps are association lists where an assignment prepends the new
  binding and lookup returns the most recent binding for a key.
* Library calls whose internals live outside this repository
  (ioutil.ReadFile, x509.ParseCRL, asn1.Unmarshal, pem.Decode,
  x509.ParseCertificate, signature checking) are modelled as oracle
  data carried by the input: a CRL file is given as its read/parse
  outcome, a PEM stream as its decoded block sequence, and a
  certificate carries its CheckCRLSignature verdict as a function.
* A Go nil-pointer dereference is modelled as an explicit panicked
  outcome: x509.ParseCRL returns a nil list on parse failure and
  SetupCrls dereferences it unconditionally (config.go line 149).
-/

namespace Smokescreen

/-- Raw bytes of a key identifier, compared byte for byte. -/
abbrev Bytes := List Nat

/-- One extension of a CRL (pkix.TBSCertificateList.Extensions entry):
its object identifier and the result of asn1.Unmarshal of its value
into the authKeyId structure (none models an unmarshal error; the
optional tag-0 field being absent yields some []). -/
structure Extension where
  oid : List Nat
  akiDecode : Option Bytes
deriving DecidableEq

/-- A parsed CRL (pkix.CertificateList) restricted to the data
SetupCrls reads from it: the TBSCertList extensions. -/
structure CertList where
  extensions : List Extension
deriving DecidableEq

/-- An X.509 certificate restricted to the fields the code reads:
SubjectKeyId, Subject.CommonName, and the verdict of
CheckCRLSignature for any candidate CRL. -/
structure Cert where
  subjectKeyId : Bytes
  subjectCommonName : String
  checkCRLSignature : CertList → Bool

/-- Go map assignment m[k] = v: the new binding shadows any prior one. -/
def mapUpdate {V : Type} (m : List (Bytes × V)) (k : Bytes) (v : V) : List (Bytes × V) :=
  (k, v) :: m

/-- Go map lookup m[k]: the most recent binding for k, if any. -/
def mapLookup {V : Type} (m : List (Bytes × V)) (k : Bytes) : Option V :=
  (m.find? (fun p => p.1 = k)).map (fun p => p.2)

/-- The revocation-relevant state of Config: the revocation table
CrlByAuthorityKeyId and the authority registry clientCasBySubjectKeyId. -/
structure ConfigState where
  CrlByAuthorityKeyId : List (Bytes × CertList)
  clientCasBySubjectKeyId : List (Bytes × Cert)

/-- The object identifier 2.5.29.35 of the Authority Key Identifier
extension (config.go line 148). -/
def authorityKeyIdentifierOid : List Nat := [2, 5, 29, 35]

/-- The extension scan of config.go lines 147-161: walk the extensions;
on the first one whose id equals 2.5.29.35, unmarshal its value — an
unmarshal error continues with the next extension, a successful
unmarshal breaks with the decoded id bytes (possibly empty). The
initial value of crlIssuerId is the empty string. -/
def findCrlIssuerId : List Extension → Bytes
  | [] => []
  | v :: rest =>
    if v.oid = authorityKeyIdentifierOid then
      match v.akiDecode with
      | none => findCrlIssuerId rest
      | some ids => ids
    else findCrlIssuerId rest

/-- The outcome of reading and parsing one CRL file: ioutil.ReadFile
failed, x509.ParseCRL failed (returning a nil pointer), or a parsed
certificate list. -/
inductive FileContent
  | readError
  | parseError
  | parsed (cl : CertList)
deriving DecidableEq

/-- Outcome of a (partial) run of SetupCrls, carrying the Config state
it left behind: normal continuation, an error return (the fail at
config.go line 138), or a Go runtime panic. -/
inductive StepResult
  | ok (st : ConfigState)
  | ioError (st : ConfigState)
  | panicked (st : ConfigState)

/-- The Config state a run left behind, regardless of how it ended. -/
def resultState : StepResult → ConfigState
  | .ok st => st
  | .ioError st => st
  | .panicked st => st

/-- One iteration of the SetupCrls loop (config.go lines 135-186) on
one file. A read error returns from SetupCrls with the error. A parse
error logs, then falls through to dereference the nil certList at
line 149: a panic. Otherwise: extract the issuer id; an empty id skips
the file; a registry miss skips the file; a failed signature check
skips the file; success evicts the old entry for that issuer. -/
def processFile (st : ConfigState) (f : FileContent) : StepResult :=
  match f with
  | .readError => .ioError st
  | .parseError => .panicked st
  | .parsed cl =>
    let crlIssuerId := findCrlIssuerId cl.extensions
    if crlIssuerId = [] then .ok st
    else
      match mapLookup st.clientCasBySubjectKeyId crlIssuerId with
      | none => .ok st
      | some caCert =>
        if caCert.checkCRLSignature cl then
          .ok { st with CrlByAuthorityKeyId := mapUpdate st.CrlByAuthorityKeyId crlIssuerId cl }
        else .ok st

/-- The file loop of SetupCrls: process files in order, stopping at the
first error return or panic. -/
def setupCrlsLoop (st : ConfigState) : List FileContent → StepResult
  | [] => .ok st
  | f :: rest =>
    match processFile st f with
    | .ok st2 => setupCrlsLoop st2 rest
    | r => r

/-- SetupCrls (config.go lines 129-196): first replace both
CrlByAuthorityKeyId and clientCasBySubjectKeyId with fresh empty maps
(lines 132-133), then run the file loop. The final warning loop over
loaded CAs (lines 189-194) only logs and does not change state; a run
that completes the loop returns nil. -/
def SetupCrls (st : ConfigState) (crlFiles : List FileContent) : StepResult :=
  let _ := st
  setupCrlsLoop { CrlByAuthorityKeyId := [], clientCasBySubjectKeyId := [] } crlFiles

/-- The sequence of values of the published field CrlByAuthorityKeyId
observable during the loop: the state at entry of each iteration and
the state the run ends in. -/
def loopTrace (st : ConfigState) : List FileContent → List ConfigState
  | [] => [st]
  | f :: rest =>
    st ::
      (match processFile st f with
       | .ok st2 => loopTrace st2 rest
       | .ioError st2 => [st2]
       | .panicked st2 => [st2])

/-- The states a concurrent reader of the config can observe across a
SetupCrls call: the pre-call state, then the state at each loop
iteration after the maps were replaced at lines 132-133. -/
def setupCrlsTrace (st : ConfigState) (crlFiles : List FileContent) : List ConfigState :=
  st :: loopTrace { CrlByAuthorityKeyId := [], clientCasBySubjectKeyId := [] } crlFiles

/-- With an empty authority registry, processing any parsed file leaves
the state untouched: the issuer is either empty (skip) or misses the
empty registry (skip). -/
theorem processFile_parsed_empty_cas (st : ConfigState) (cl : CertList)
    (h : st.clientCasBySubjectKeyId = []) :
    processFile st (.parsed cl) = .ok st := by
  by_cases hi : findCrlIssuerId cl.extensions = [] <;>
    simp [processFile, h, hi, mapLookup]

/-- With an empty authority registry the loop never changes the state:
every outcome carries the entry state. -/
theorem resultState_setupCrlsLoop (files : List FileContent) (st : ConfigState)
    (h : st.clientCasBySubjectKeyId = []) :
    resultState (setupCrlsLoop st files) = st := by
  induction files generalizing st with
  | nil => rfl
  | cons f rest ih =>
    cases f with
    | readError => rfl
    | parseError => rfl
    | parsed cl =>
      simp only [setupCrlsLoop, processFile_parsed_empty_cas st cl h]
      exact ih st h

/-- With an empty authority registry every state in the loop trace is
the entry state. -/
theorem loopTrace_empty_cas (files : List FileContent) (st : ConfigState)
    (h : st.clientCasBySubjectKeyId = []) :
    ∀ t ∈ loopTrace st files, t = st := by
  induction files generalizing st with
  | nil =>
    intro t ht
    simpa [loopTrace] using ht
  | cons f rest ih =>
    intro t ht
    cases f with
    | readError =>
      simp only [loopTrace, processFile] at ht
      rcases List.mem_cons.mp ht with h1 | h1
      · exact h1
      · simpa using h1
    | parseError =>
      simp only [loopTrace, processFile] at ht
      rcases List.mem_cons.mp ht with h1 | h1
      · exact h1
      · simpa using h1
    | parsed cl =>
      simp only [loopTrace, processFile_parsed_empty_cas st cl h] at ht
      rcases List.mem_cons.mp ht with h1 | h1
      · exact h1
      · exact ih st h t h1

/-- A Go error value as used by the identity resolvers: either the
tagged missingRoleError produced by MissingRoleError, or any other
error. -/
inductive GoError
  | missingRole (msg : String)
  | other (msg : String)
deriving DecidableEq

/-- IsMissingRoleError (config.go lines 52-55): the run-time type check
for the missingRoleError wrapper. -/
def IsMissingRoleError : GoError → Bool
  | .missingRole _ => true
  | .other _ => false

/-- An inbound request restricted to what the resolvers read: the
TLS peer certificate chain and the values of the
X-Smokescreen-Role header (Go header values are a string slice; an
absent header is the empty slice). -/
structure Request where
  PeerCertificates : List Cert
  roleHeader : List String

/-- The mutual-TLS resolver installed at config.go lines 106-112:
zero peer certificates fail with a missing-role error; otherwise the
identity is the Subject Common Name of the first peer certificate. -/
def mtlsRoleFromRequest (peerCertificates : List Cert) : Except GoError String :=
  match peerCertificates with
  | [] => .error (.missingRole "client did not provide certificate")
  | c :: _ => .ok c.subjectCommonName

/-- The header resolver installed at config.go lines 114-123: an empty
value slice and a slice of length greater than one both fail with a
missing-role error; a single value is returned verbatim. -/
def headerRoleFromRequest (idHeader : List String) : Except GoError String :=
  if idHeader.length = 0 then
    .error (.missingRole "client did not send an X-Smokescreen-Role header")
  else if 1 < idHeader.length then
    .error (.missingRole "client sent multiple X-Smokescreen-Role headers")
  else
    match idHeader with
    | v :: _ => .ok v
    | [] => .error (.missingRole "client did not send an X-Smokescreen-Role header")

/-- A certificate pool (x509.CertPool) restricted to the certificates
appended to it. A Go nil pool pointer is modelled as none at use sites. -/
structure CertPool where
  certs : List Cert

/-- tls.ClientAuthType values used by SetupTls. -/
inductive ClientAuthType
  | NoClientCert
  | VerifyClientCertIfGiven
deriving DecidableEq

/-- The fields of tls.Config that Config.Init and SetupTls touch.
ClientCAs is an Option because Go compares the pool pointer to nil. -/
structure TlsConfigM where
  ClientAuth : ClientAuthType
  ClientCAs : Option CertPool

/-- The resolver selection of Config.Init (config.go lines 104-124):
the mutual-TLS resolver exactly when TlsConfig is non-nil and its
ClientCAs pool is non-nil, the header resolver otherwise. -/
def RoleFromRequest (tlsConfig : Option TlsConfigM) : Request → Except GoError String :=
  match tlsConfig with
  | some tc =>
    match tc.ClientCAs with
    | some _ => fun req => mtlsRoleFromRequest req.PeerCertificates
    | none => fun req => headerRoleFromRequest req.roleHeader
  | none => fun req => headerRoleFromRequest req.roleHeader

/-- One PEM block as produced by pem.Decode: its type string, whether
it carries headers, and the result of x509.ParseCertificate on its
bytes (none models a parse error). -/
structure PemBlock where
  type : String
  hasHeaders : Bool
  parse : Option Cert

/-- populateClientCaMap (config.go lines 286-307): scan the decoded
blocks; skip a block whose type is not CERTIFICATE or which carries
headers; skip a block whose certificate fails to parse; insert each
parsed certificate keyed by its SubjectKeyId, overwriting prior
entries; report true when at least one certificate was inserted. -/
def populateClientCaMap (cas : List (Bytes × Cert)) :
    List PemBlock → List (Bytes × Cert) × Bool
  | [] => (cas, false)
  | b :: rest =>
    if b.type = "CERTIFICATE" ∧ b.hasHeaders = false then
      match b.parse with
      | some cert =>
        let r := populateClientCaMap (mapUpdate cas cert.subjectKeyId cert) rest
        (r.1, true)
      | none => populateClientCaMap cas rest
    else populateClientCaMap cas rest

/-- CertPool.AppendCertsFromPEM on a decoded block sequence: append
every well-formed certificate block, report whether any was appended. -/
def AppendCertsFromPEM (pool : CertPool) :
    List PemBlock → CertPool × Bool
  | [] => (pool, false)
  | b :: rest =>
    if b.type = "CERTIFICATE" ∧ b.hasHeaders = false then
      match b.parse with
      | some cert =>
        let r := AppendCertsFromPEM { certs := pool.certs ++ [cert] } rest
        (r.1, true)
      | none => AppendCertsFromPEM pool rest
    else AppendCertsFromPEM pool rest

/-- addCertsFromFile (config.go lines 237-251): a CA file is given as
its read outcome (none is a read error, in which case the data passed
to populateClientCaMap is nil and the map is untouched). On readable
data the client-CA map is populated first, then the bytes are appended
to the pool; appending nothing is an error. -/
def addCertsFromFile (st : ConfigState) (pool : CertPool)
    (file : Option (List PemBlock)) : Option (ConfigState × CertPool) :=
  match file with
  | none => none
  | some blocks =>
    let st2 : ConfigState :=
      { st with clientCasBySubjectKeyId :=
          (populateClientCaMap st.clientCasBySubjectKeyId blocks).1 }
    let r := AppendCertsFromPEM pool blocks
    if r.2 then some (st2, r.1) else none

/-- The loop over clientCAFiles in SetupTls (config.go lines 269-274). -/
def addAllCertFiles (st : ConfigState) (pool : CertPool) :
    List (Option (List PemBlock)) → Option (ConfigState × CertPool)
  | [] => some (st, pool)
  | f :: rest =>
    match addCertsFromFile st pool f with
    | none => none
    | some (st2, pool2) => addAllCertFiles st2 pool2 rest

/-- SetupTls (config.go lines 254-284). Loading the server key pair is
abstracted into serverCertOk (false also covers empty file names).
ClientAuth stays NoClientCert when no client CA files are given;
the ClientCAs pool created by x509.NewCertPool at line 265 is stored
into the tls.Config in every successful run, so ClientCAs is non-nil
even when clientCAFiles is empty. -/
def SetupTls (st : ConfigState) (serverCertOk : Bool)
    (clientCAFiles : List (Option (List PemBlock))) :
    Option (ConfigState × TlsConfigM) :=
  if serverCertOk then
    let clientAuth :=
      if clientCAFiles.length ≠ 0 then ClientAuthType.VerifyClientCertIfGiven
      else ClientAuthType.NoClientCert
    match addAllCertFiles st { certs := [] } clientCAFiles with
    | none => none
    | some (st2, pool) =>
      some (st2, { ClientAuth := clientAuth, ClientCAs := some pool })
  else none

/-- The certificates accepted by the populateClientCaMap scan: blocks
of type CERTIFICATE, without headers, whose certificate parses. -/
def acceptedCerts (blocks : List PemBlock) : List Cert :=
  blocks.filterMap
    (fun b => if b.type = "CERTIFICATE" ∧ b.hasHeaders = false then b.parse else none)

/-- The last certificate in a list whose SubjectKeyId is k, if any. -/
def lastWithSki : List Cert → Bytes → Option Cert
  | [], _ => none
  | c :: rest, k =>
    match lastWithSki rest k with
    | some d => some d
    | none => if c.subjectKeyId = k then some c else none

theorem mapLookup_update {V : Type} (m : List (Bytes × V)) (k k2 : Bytes) (v : V) :
    mapLookup (mapUpdate m k v) k2 = if k = k2 then some v else mapLookup m k2 := by
  by_cases h : k = k2 <;> simp [mapUpdate, mapLookup, List.find?_cons, h]

/-- Claim C9: for every PEM byte stream given to populateClientCaMap,
every well-formed certificate block (type CERTIFICATE, no PEM headers,
X.509 parse succeeds) is inserted into the registry keyed by the exact
bytes of its Subject Key Identifier, overwriting any prior entry with
the same key — the final binding for a key is the last accepted
certificate carrying it, and keys without an accepted certificate keep
their prior binding; malformed blocks and blocks of other types are
skipped without aborting the scan; and the scan reports success if and
only if at least one certificate was loaded. -/
theorem populateClientCaMap_spec (cas : List (Bytes × Cert)) (blocks : List PemBlock) :
    (∀ k, mapLookup (populateClientCaMap cas blocks).1 k =
      match lastWithSki (acceptedCerts blocks) k with
      | some c => some c
      | none => mapLookup cas k) ∧
    (populateClientCaMap cas blocks).2 = !(acceptedCerts blocks).isEmpty := by
  induction blocks generalizing cas with
  | nil => exact ⟨fun k => rfl, rfl⟩
  | cons b rest ih =>
    by_cases hb : b.type = "CERTIFICATE" ∧ b.hasHeaders = false
    · cases hp : b.parse with
      | none =>
        have hacc : acceptedCerts (b :: rest) = acceptedCerts rest := by
          simp [acceptedCerts, List.filterMap_cons, hb, hp]
        have hpop : populateClientCaMap cas (b :: rest) = populateClientCaMap cas rest := by
          simp [populateClientCaMap, hb.1, hb.2, hp]
        rw [hpop, hacc]
        exact ih cas
      | some c =>
        have hacc : acceptedCerts (b :: rest) = c :: acceptedCerts rest := by
          simp [acceptedCerts, List.filterMap_cons, hb, hp]
        have hpop : populateClientCaMap cas (b :: rest) =
            ((populateClientCaMap (mapUpdate cas c.subjectKeyId c) rest).1, true) := by
          simp [populateClientCaMap, hb.1, hb.2, hp]
        constructor
        · intro k
          have h1 := (ih (mapUpdate cas c.subjectKeyId c)).1 k
          rw [hpop, hacc]
          dsimp only
          rw [h1]
          rw [mapLookup_update]
          cases hl : lastWithSki (acceptedCerts rest) k with
          | some d => simp [lastWithSki, hl]
          | none =>
            by_cases hk : c.subjectKeyId = k <;> simp [lastWithSki, hl, hk]
        · rw [hpop, hacc]
          simp
    · have hacc : acceptedCerts (b :: rest) = acceptedCerts rest := by
        simp only [acceptedCerts, List.filterMap_cons, if_neg hb]
      have hpop : populateClientCaMap cas (b :: rest) = populateClientCaMap cas rest := by
        simp only [populateClientCaMap, if_neg hb]
      rw [hpop, hacc]
      exact ih cas

/-- Claim C6: for every request under the header strategy (the
resolver Config.Init installs when no client-certificate pool is
configured): an absent header fails with a MissingRole error, a header
present more than once fails with a MissingRole error rather than
taking the first or last value, and a header present exactly once
resolves to its value verbatim. -/
theorem headerRole_resolution (vs : List String) :
    (∀ req : Request, RoleFromRequest none req = headerRoleFromRequest req.roleHeader) ∧
    (vs.length = 0 →
      headerRoleFromRequest vs =
        .error (.missingRole "client did not send an X-Smokescreen-Role header")) ∧
    (1 < vs.length →
      headerRoleFromRequest vs =
        .error (.missingRole "client sent multiple X-Smokescreen-Role headers")) ∧
    (∀ v, vs = [v] → headerRoleFromRequest vs = .ok v) := by
  refine ⟨fun req => rfl, ?_, ?_, ?_⟩
  · intro h
    simp [headerRoleFromRequest, h]
  · intro h
    have h0 : vs.length ≠ 0 := by omega
    simp [headerRoleFromRequest, h0, h]
  · intro v hv
    subst hv
    rfl

/-- Claim C6 witness: a doubled header (identical values) is rejected
with a MissingRole error, and a single header value resolves to
itself. -/
theorem headerRole_resolution_witness :
    headerRoleFromRequest ["payments-service", "payments-service"] =
      .error (.missingRole "client sent multiple X-Smokescreen-Role headers") ∧
    headerRoleFromRequest ["payments-service"] = .ok "payments-service" :=
  ⟨(headerRole_resolution ["payments-service", "payments-service"]).2.2.1 (by decide),
   (headerRole_resolution ["payments-service"]).2.2.2 "payments-service" rfl⟩

/-- Claim C8: for every request under the mutual-TLS strategy (the
resolver Config.Init installs when a client-certificate pool is
configured): zero peer certificates fail with a MissingRole error,
handled without panicking or defaulting; one or more peer certificates
resolve to the Subject Common Name of the first certificate in the
peer chain. -/
theorem mtlsRole_resolution (certs : List Cert) :
    (∀ tc : TlsConfigM, ∀ pool req, tc.ClientCAs = some pool →
      RoleFromRequest (some tc) req = mtlsRoleFromRequest req.PeerCertificates) ∧
    (certs = [] →
      mtlsRoleFromRequest certs =
        .error (.missingRole "client did not provide certificate")) ∧
    (∀ c rest, certs = c :: rest →
      mtlsRoleFromRequest certs = .ok c.subjectCommonName) := by
  refine ⟨?_, ?_, ?_⟩
  · intro tc pool req h
    cases tc with
    | mk auth cas =>
      cases cas with
      | none => exact absurd h (by simp)
      | some p => rfl
  · intro h
    subst h
    rfl
  · intro c rest h
    subst h
    rfl

/-- Claim C8 witness: a connection with no peer certificates is
rejected with a MissingRole error, and a chain headed by a certificate
with Common Name payments-service resolves to payments-service. -/
theorem mtlsRole_resolution_witness :
    mtlsRoleFromRequest [] = .error (.missingRole "client did not provide certificate") ∧
    mtlsRoleFromRequest
        [{ subjectKeyId := [1], subjectCommonName := "payments-service",
           checkCRLSignature := fun _ => true }] = .ok "payments-service" :=
  ⟨(mtlsRole_resolution []).2.1 rfl,
   (mtlsRole_resolution
      [{ subjectKeyId := [1], subjectCommonName := "payments-service",
         checkCRLSignature := fun _ => true }]).2.2
      { subjectKeyId := [1], subjectCommonName := "payments-service",
        checkCRLSignature := fun _ => true } [] rfl⟩

/-- Claim C7 counterexample: SetupTls with zero client CA files still
stores a non-nil (empty) ClientCAs pool, so Config.Init selects the
mutual-TLS resolver, not the header resolver: a request carrying
exactly one role header value and no peer certificate is rejected with
the certificate error, while the header resolver would accept it. -/
theorem zero_ca_files_selects_mtls :
    SetupTls { CrlByAuthorityKeyId := [], clientCasBySubjectKeyId := [] } true [] =
      some ({ CrlByAuthorityKeyId := [], clientCasBySubjectKeyId := [] },
        { ClientAuth := .NoClientCert, ClientCAs := some { certs := [] } }) ∧
    RoleFromRequest
        (some { ClientAuth := .NoClientCert, ClientCAs := some { certs := [] } })
        { PeerCertificates := [], roleHeader := ["payments-service"] } =
      .error (.missingRole "client did not provide certificate") ∧
    headerRoleFromRequest ["payments-service"] = .ok "payments-service" :=
  ⟨rfl, rfl, rfl⟩

/-- Claim C7 amended: the resolver is selected once, at Init, on
whether TlsConfig is non-nil with a non-nil ClientCAs pool. Every
successful SetupTls run stores a non-nil ClientCAs pool — even with
zero client CA files — so the mutual-TLS strategy is chosen after any
successful SetupTls; the header strategy is chosen only when TlsConfig
is nil or its ClientCAs field is nil. -/
theorem roleStrategy_selection (st : ConfigState) (serverCertOk : Bool)
    (files : List (Option (List PemBlock))) (st2 : ConfigState) (tc : TlsConfigM)
    (h : SetupTls st serverCertOk files = some (st2, tc)) :
    (∃ pool, tc.ClientCAs = some pool) ∧
    (∀ req, RoleFromRequest (some tc) req = mtlsRoleFromRequest req.PeerCertificates) ∧
    (∀ auth req,
      RoleFromRequest (some { ClientAuth := auth, ClientCAs := none }) req =
        headerRoleFromRequest req.roleHeader) ∧
    (∀ req, RoleFromRequest none req = headerRoleFromRequest req.roleHeader) := by
  cases serverCertOk with
  | false => simp [SetupTls] at h
  | true =>
    simp only [SetupTls, if_true] at h
    cases haa : addAllCertFiles st { certs := [] } files with
    | none =>
      rw [haa] at h
      exact absurd h (by simp)
    | some r =>
      obtain ⟨st3, pool⟩ := r
      rw [haa] at h
      simp only [Option.some.injEq, Prod.mk.injEq] at h
      obtain ⟨-, htc⟩ := h
      subst htc
      exact ⟨⟨pool, rfl⟩, fun req => rfl, fun auth req => rfl, fun req => rfl⟩

/-- Claim C7 amended witness: a concrete successful SetupTls run with
zero client CA files yields a TlsConfig whose ClientCAs pool is
non-nil. -/
theorem roleStrategy_selection_witness :
    ∃ pool,
      ({ ClientAuth := ClientAuthType.NoClientCert,
         ClientCAs := some { certs := [] } } : TlsConfigM).ClientCAs = some pool :=
  (roleStrategy_selection { CrlByAuthorityKeyId := [], clientCasBySubjectKeyId := [] }
      true [] { CrlByAuthorityKeyId := [], clientCasBySubjectKeyId := [] }
      { ClientAuth := ClientAuthType.NoClientCert, ClientCAs := some { certs := [] } }
      rfl).1

/-- A certificate authority whose key id is the byte string 1 2 3 and
which accepts every CRL signature. -/
def caA : Cert :=
  { subjectKeyId := [1, 2, 3], subjectCommonName := "ca-a",
    checkCRLSignature := fun _ => true }

/-- A CRL whose Authority Key Identifier extension decodes to the key
id of caA. -/
def crlA : CertList :=
  { extensions := [{ oid := [2, 5, 29, 35], akiDecode := some [1, 2, 3] }] }

/-- A configuration in which caA is registered as a client CA before
the reload. -/
def stWithCaA : ConfigState :=
  { CrlByAuthorityKeyId := [], clientCasBySubjectKeyId := [([1, 2, 3], caA)] }

/-- Claim C1: evaluation at the failing input. Authority caA is in the
registry when SetupCrls is called, crlA carries caA's key id and its
signature verifies under caA, yet SetupCrls returns with an empty
revocation table: line 133 replaces the registry with an empty map
before any file is processed, so the authority lookup fails and the
CRL is skipped instead of installed. -/
theorem SetupCrls_drops_valid_crl :
    mapLookup stWithCaA.clientCasBySubjectKeyId [1, 2, 3] = some caA ∧
    findCrlIssuerId crlA.extensions = [1, 2, 3] ∧
    caA.checkCRLSignature crlA = true ∧
    SetupCrls stWithCaA [.parsed crlA] =
      .ok { CrlByAuthorityKeyId := [], clientCasBySubjectKeyId := [] } ∧
    mapLookup (resultState (SetupCrls stWithCaA [.parsed crlA])).CrlByAuthorityKeyId
      [1, 2, 3] = none :=
  ⟨rfl, rfl, rfl, rfl, rfl⟩

/-- Claim C2: evaluation at the failing input. A file whose bytes fail
x509.ParseCRL leaves certList as a nil pointer; the missing continue
after the parse-error log means line 149 dereferences it, so the run
panics instead of skipping: the following well-formed file is never
processed. -/
theorem SetupCrls_parse_failure_panics :
    SetupCrls stWithCaA [.parseError, .parsed crlA] =
      .panicked { CrlByAuthorityKeyId := [], clientCasBySubjectKeyId := [] } :=
  rfl

/-- A previously published revocation list, and a prior configuration
with a nonempty revocation table. -/
def crlOld : CertList := { extensions := [] }

/-- A configuration whose published revocation table is nonempty
before a reload. -/
def stC3 : ConfigState :=
  { CrlByAuthorityKeyId := [([9], crlOld)], clientCasBySubjectKeyId := [] }

/-- Claim C3 counterexample: at the observation point after line 132
but before the single CRL file is processed (index 1 of a 3-state
trace), the published revocation table is already the fresh empty map,
not the pre-reload table: the previously published table is replaced
before the reload's table is built, not by a single swap of the fully
built table at the end. -/
theorem setupCrls_publishes_before_processing :
    (setupCrlsTrace stC3 [.parsed crlA]).length = 3 ∧
    ((setupCrlsTrace stC3 [.parsed crlA])[1]?).map ConfigState.CrlByAuthorityKeyId =
      some [] ∧
    stC3.CrlByAuthorityKeyId ≠ [] := by
  refine ⟨rfl, rfl, ?_⟩
  simp [stC3]

/-- Claim C3 amended: SetupCrls replaces the published table with a
fresh empty map before processing any file, and installs entries
directly into the published map rather than building in isolation and
swapping once at the end. A reader during the reload therefore
observes either the pre-reload table or the in-progress new map; in
the current code the in-progress map never gains entries (the CA
registry is cleared too), so every observable table is the pre-reload
table or the empty map. -/
theorem setupCrlsTrace_old_or_empty (st : ConfigState) (files : List FileContent) :
    ∀ t ∈ setupCrlsTrace st files,
      t.CrlByAuthorityKeyId = st.CrlByAuthorityKeyId ∨ t.CrlByAuthorityKeyId = [] := by
  intro t ht
  rcases List.mem_cons.mp ht with h1 | h1
  · exact Or.inl (by rw [h1])
  · have h2 := loopTrace_empty_cas files
      { CrlByAuthorityKeyId := [], clientCasBySubjectKeyId := [] } rfl t h1
    exact Or.inr (by rw [h2])

/-- Claim C3 amended witness: the empty post-reset state is in the
trace of a reload starting from a nonempty published table, and its
table is one of the two permitted values. -/
theorem setupCrlsTrace_old_or_empty_witness :
    ({ CrlByAuthorityKeyId := [], clientCasBySubjectKeyId := [] } :
        ConfigState).CrlByAuthorityKeyId = stC3.CrlByAuthorityKeyId ∨
    ({ CrlByAuthorityKeyId := [], clientCasBySubjectKeyId := [] } :
        ConfigState).CrlByAuthorityKeyId = [] :=
  setupCrlsTrace_old_or_empty stC3 []
    { CrlByAuthorityKeyId := [], clientCasBySubjectKeyId := [] }
    (by simp [setupCrlsTrace, loopTrace])

/-- A PEM block carrying the caA certificate. -/
def blockA : PemBlock :=
  { type := "CERTIFICATE", hasHeaders := false, parse := some caA }

/-- A configuration reached by operations of the code: a reload
(SetupCrls on one valid CRL file for caA) followed by loading caA into
the registry via populateClientCaMap. -/
def stC4 : ConfigState :=
  { CrlByAuthorityKeyId :=
      (resultState (SetupCrls { CrlByAuthorityKeyId := [], clientCasBySubjectKeyId := [] }
        [.parsed crlA])).CrlByAuthorityKeyId,
    clientCasBySubjectKeyId :=
      (populateClientCaMap
        (resultState (SetupCrls { CrlByAuthorityKeyId := [], clientCasBySubjectKeyId := [] }
          [.parsed crlA])).clientCasBySubjectKeyId [blockA]).1 }

/-- Claim C4 counterexample: in the reachable state stC4 the list crlA
satisfies both conditions of the invariant — its authority key id maps
to the registered authority caA and caA's key validates its signature —
yet no list is present in the revocation table under that key: the
if-and-only-if fails in the validated-implies-stored direction. -/
theorem revocation_invariant_fails :
    mapLookup stC4.clientCasBySubjectKeyId [1, 2, 3] = some caA ∧
    caA.checkCRLSignature crlA = true ∧
    findCrlIssuerId crlA.extensions = [1, 2, 3] ∧
    mapLookup stC4.CrlByAuthorityKeyId [1, 2, 3] = none :=
  ⟨rfl, rfl, rfl, rfl⟩

/-- Claim C4 amended: only the stored-implies-validated direction of
the invariant survives, and it holds vacuously: after every SetupCrls
call the revocation table is empty under every key (the registry is
cleared before processing, so no candidate list is ever installed);
the validated-implies-stored direction fails. -/
theorem SetupCrls_table_empty (st : ConfigState) (files : List FileContent) (k : Bytes) :
    mapLookup (resultState (SetupCrls st files)).CrlByAuthorityKeyId k = none := by
  have h := resultState_setupCrlsLoop files
    { CrlByAuthorityKeyId := [], clientCasBySubjectKeyId := [] } rfl
  show mapLookup
    (resultState (setupCrlsLoop { CrlByAuthorityKeyId := [], clientCasBySubjectKeyId := [] }
      files)).CrlByAuthorityKeyId k = none
  rw [h]
  rfl

/-- A configuration with a nonempty published revocation table, used
for the read-failure counterexample. -/
def stC5 : ConfigState :=
  { CrlByAuthorityKeyId := [([7], crlOld)], clientCasBySubjectKeyId := [] }

/-- Claim C5 counterexample: a read failure makes SetupCrls return an
error, but the configuration's revocation state does not remain the
previously published one: both maps were already replaced by empty
maps at lines 132-133, so the failed reload leaves an empty table
where the prior table was nonempty. -/
theorem SetupCrls_read_failure_clears_table :
    SetupCrls stC5 [.readError] =
      .ioError { CrlByAuthorityKeyId := [], clientCasBySubjectKeyId := [] } ∧
    stC5.CrlByAuthorityKeyId ≠ [] :=
  ⟨rfl, by simp [stC5]⟩

/-- Claim C5 amended: if reading any file fails, SetupCrls aborts the
reload at that file and returns an error (files after it are not
processed), but the configuration does not keep the previously
published revocation state: the table and the registry were cleared at
entry, so the post-failure state carries empty maps. -/
theorem SetupCrls_read_failure_aborts (st : ConfigState) (pre post : List FileContent)
    (h : ∀ g ∈ pre, ∃ cl, g = FileContent.parsed cl) :
    SetupCrls st (pre ++ FileContent.readError :: post) =
      .ioError { CrlByAuthorityKeyId := [], clientCasBySubjectKeyId := [] } := by
  have key : ∀ pre2, (∀ g ∈ pre2, ∃ cl, g = FileContent.parsed cl) →
      setupCrlsLoop { CrlByAuthorityKeyId := [], clientCasBySubjectKeyId := [] }
        (pre2 ++ FileContent.readError :: post) =
      .ioError { CrlByAuthorityKeyId := [], clientCasBySubjectKeyId := [] } := by
    intro pre2
    induction pre2 with
    | nil => intro _; rfl
    | cons g rest ih =>
      intro h2
      obtain ⟨cl, hg⟩ := h2 g (by simp)
      subst hg
      have h1 := processFile_parsed_empty_cas
        { CrlByAuthorityKeyId := [], clientCasBySubjectKeyId := [] } cl rfl
      simp only [List.cons_append, setupCrlsLoop, h1]
      exact ih (fun g hgm => h2 g (by simp [hgm]))
  exact key pre h

/-- Claim C5 amended witness: a reload whose second file is unreadable,
starting from a nonempty published table, returns an error carrying
the emptied configuration. -/
theorem SetupCrls_read_failure_aborts_witness :
    SetupCrls stC5 ([FileContent.parsed crlA] ++ FileContent.readError :: []) =
      .ioError { CrlByAuthorityKeyId := [], clientCasBySubjectKeyId := [] } :=
  SetupCrls_read_failure_aborts stC5 [FileContent.parsed crlA] []
    (fun g hg => ⟨crlA, by simpa using hg⟩)

/-- Claim C10: SetupCrls replaces both the revocation table and the
certificate-authority registry with empty maps before processing any
file — its result does not depend on the prior state at all, the state
published at the first loop iteration is the empty one, and every
authority lookup runs against a registry with no entries, so the final
state carries an empty table and an empty registry. -/
theorem SetupCrls_reset (st st2 : ConfigState) (files : List FileContent) :
    SetupCrls st files = SetupCrls st2 files ∧
    (setupCrlsTrace st files)[1]? =
      some { CrlByAuthorityKeyId := [], clientCasBySubjectKeyId := [] } ∧
    resultState (SetupCrls st files) =
      { CrlByAuthorityKeyId := [], clientCasBySubjectKeyId := [] } := by
  refine ⟨rfl, ?_, ?_⟩
  · cases files <;> simp [setupCrlsTrace, loopTrace]
  · exact resultState_setupCrlsLoop files
      { CrlByAuthorityKeyId := [], clientCasBySubjectKeyId := [] } rfl

end Smokescreen
